import Mathlib

/-!
Verification development for the Euclid ray-tracing core
(`include/Euclid/Render/RayTracer.h` and its implementation).

The repository ships the RayTracer header (class declarations, default
member initializers and doc comments) together with its test suite; the
implementation translation unit `src/RayTracer.cpp` is included at the end
of the header but is not part of the available sources.  The definitions
below therefore model the implementation from the specification document
and the header's declarations, idealizing IEEE floats as real numbers and
the Embree intersection engine as an abstract oracle.
-/

namespace Euclid

/-- 3-component vector over the reals, idealizing `Eigen::Vector3f`. -/
@[ext] structure Vec3 where
  x : ℝ
  y : ℝ
  z : ℝ

namespace Vec3

noncomputable instance : Add Vec3 := ⟨fun a b => ⟨a.x + b.x, a.y + b.y, a.z + b.z⟩⟩
noncomputable instance : Sub Vec3 := ⟨fun a b => ⟨a.x - b.x, a.y - b.y, a.z - b.z⟩⟩
noncomputable instance : Neg Vec3 := ⟨fun a => ⟨-a.x, -a.y, -a.z⟩⟩
noncomputable instance : SMul ℝ Vec3 := ⟨fun r a => ⟨r * a.x, r * a.y, r * a.z⟩⟩

/-- The zero vector. -/
def zero : Vec3 := ⟨0, 0, 0⟩

/-- Euclidean dot product. -/
noncomputable def dot (a b : Vec3) : ℝ := a.x * b.x + a.y * b.y + a.z * b.z

/-- Cross product, right-handed. -/
noncomputable def cross (a b : Vec3) : Vec3 :=
  ⟨a.y * b.z - a.z * b.y, a.z * b.x - a.x * b.z, a.x * b.y - a.y * b.x⟩

/-- Euclidean length. -/
noncomputable def norm (a : Vec3) : ℝ := Real.sqrt (dot a a)

/-- Normalization; maps the zero vector to itself (division by zero). -/
noncomputable def normalize (a : Vec3) : Vec3 := (1 / norm a) • a

end Vec3


/-- The film plane, from the header (`struct Film`). -/
structure Film where
  width : ℝ
  height : ℝ

/-- A ray with a parametric interval, idealizing the ray part of Embree's
`RTCRayHit` as produced by `gen_ray` (the hit part starts out "no hit" and
is owned by the intersection engine, modelled separately as an oracle). -/
structure Ray where
  org : Vec3
  dir : Vec3
  tnear : ℝ
  tfar : ℝ

/-- The positionable camera base class.  Field names and default member
initializers are from the header (`class Camera`, lines 108-123). -/
structure Camera where
  pos : Vec3
  u : Vec3
  v : Vec3
  dir : Vec3
  film : Film

/-- Default-constructed `Camera`: the header's in-class initializers
`pos{0,0,0}`, `u{1,0,0}`, `v{0,1,0}`, `dir{0,0,1}`, `film{256,256}`. -/
def Camera.default : Camera :=
  ⟨⟨0, 0, 0⟩, ⟨1, 0, 0⟩, ⟨0, 1, 0⟩, ⟨0, 0, 1⟩, ⟨256, 256⟩⟩

/-- Modelled from the spec: the body of `Camera::lookat` is in the missing
translation unit `src/RayTracer.cpp`; the spec's contract is
`dir = normalize(position - focus)`, `u = normalize(up x dir)`,
`v = dir x u`, leaving position and film as given. -/
noncomputable def Camera.lookat (c : Camera) (position focus up : Vec3) : Camera :=
  let d := Vec3.normalize (position - focus)
  let uu := Vec3.normalize (Vec3.cross up d)
  { c with pos := position, dir := d, u := uu, v := Vec3.cross d uu }

/-- Modelled from the spec: the perspective projection parameters vfov
and aspect that determine the film plane.  The header declares no such
members — the missing implementation derives its film state from them —
but they are carried explicitly here so `gen_ray` can be stated in the
spec's own terms. -/
structure PerspectiveCamera where
  toCamera : Camera
  vfov : ℝ
  aspect : ℝ

/-- A sample perspective camera: the base-camera defaults together with
vfov = 90 degrees and aspect = 1, the declared default arguments of the
parameterized constructor.  Note the header's default constructor
`PerspectiveCamera() : Camera()` delegates to the base class only and
does not apply these arguments (see `PerspectiveCamera.defaultCtor`);
this value serves as a concrete inhabitant. -/
def PerspectiveCamera.default : PerspectiveCamera :=
  ⟨Camera.default, 90, 1⟩

/-- The member state of a default-constructed `PerspectiveCamera`, from
the header visible in src/: `PerspectiveCamera() : Camera()` delegates to
the base-class member initializers, and the class declares no members
beyond `Camera`'s `pos`, `u`, `v`, `dir`, `film`, so the state is exactly
the default `Camera` — in particular the film plane, which carries the
perspective fov state in the implementation, stays at 256 x 256.  The
parameterized constructor's declared default arguments `vfov = 90`,
`aspect = 1` are not involved. -/
def PerspectiveCamera.defaultCtor : Camera := Camera.default

/-- Modelled from the spec: the film plane the parameterized
`PerspectiveCamera` constructor (body in the missing `src/RayTracer.cpp`)
derives from its vfov and aspect arguments — the film stores the
half-extents `halfHeight = tan(vfov/2)` (vfov in degrees) and
`halfWidth = halfHeight * aspect`, per the spec's contract that `set_fov`
"updates film half-height". -/
noncomputable def PerspectiveCamera.ctorFilm (vfov aspect : ℝ) : Film :=
  ⟨Real.tan (vfov * Real.pi / 180 / 2) * aspect,
   Real.tan (vfov * Real.pi / 180 / 2)⟩

/-- Half height of the perspective film plane: `tan(vfov / 2)` with `vfov`
in degrees, per the spec (`halfHeight = tan(vfov/2)`). -/
noncomputable def PerspectiveCamera.halfHeight (c : PerspectiveCamera) : ℝ :=
  Real.tan (c.vfov * Real.pi / 180 / 2)

/-- Half width of the perspective film plane: `halfHeight * aspect`. -/
noncomputable def PerspectiveCamera.halfWidth (c : PerspectiveCamera) : ℝ :=
  c.halfHeight * c.aspect

/-- Modelled from the spec: `PerspectiveCamera::gen_ray` (body in the
missing `src/RayTracer.cpp`).  Origin is the camera position; direction is
`normalize(-dir + (s*2-1)*halfWidth*u + (1-t*2)*halfHeight*v)`. -/
noncomputable def PerspectiveCamera.gen_ray (c : PerspectiveCamera)
    (s t near far : ℝ) : Ray :=
  let cam := c.toCamera
  let offset := -cam.dir + ((s * 2 - 1) * c.halfWidth) • cam.u
    + ((1 - t * 2) * c.halfHeight) • cam.v
  ⟨cam.pos, Vec3.normalize offset, near, far⟩

/-- Orthogonal camera: the film plane extent is the base camera's film,
set directly in world units (header `class OrthogonalCamera`). -/
structure OrthogonalCamera where
  toCamera : Camera

/-- Default-constructed `OrthogonalCamera`: base-camera defaults (film
256 x 256, matching the header's declared parameter defaults). -/
def OrthogonalCamera.default : OrthogonalCamera :=
  ⟨Camera.default⟩

/-- Half width of the orthogonal film plane in world units. -/
noncomputable def OrthogonalCamera.halfWidth (c : OrthogonalCamera) : ℝ :=
  c.toCamera.film.width / 2

/-- Half height of the orthogonal film plane in world units. -/
noncomputable def OrthogonalCamera.halfHeight (c : OrthogonalCamera) : ℝ :=
  c.toCamera.film.height / 2

/-- Modelled from the spec: `OrthogonalCamera::gen_ray` (body in the
missing `src/RayTracer.cpp`).  Origin is the camera position plus the
planar offset `(s*2-1)*halfWidth*u + (1-t*2)*halfHeight*v`; direction is
the constant `-dir`. -/
noncomputable def OrthogonalCamera.gen_ray (c : OrthogonalCamera)
    (s t near far : ℝ) : Ray :=
  let cam := c.toCamera
  let org := cam.pos + ((s * 2 - 1) * c.halfWidth) • cam.u
    + ((1 - t * 2) * c.halfHeight) • cam.v
  ⟨org, -cam.dir, near, far⟩

/-- Closed tagged variant over the two concrete camera classes, standing
for the virtual dispatch through `const Camera&` in the render entry
points. -/
inductive AnyCamera where
  | persp (c : PerspectiveCamera)
  | ortho (c : OrthogonalCamera)

/-- Virtual `gen_ray` dispatch. -/
noncomputable def AnyCamera.gen_ray : AnyCamera → ℝ → ℝ → ℝ → ℝ → Ray
  | .persp c, s, t, near, far => c.gen_ray s t near far
  | .ortho c, s, t, near, far => c.gen_ray s t near far

/-- Camera position of either variant. -/
def AnyCamera.pos : AnyCamera → Vec3
  | .persp c => c.toCamera.pos
  | .ortho c => c.toCamera.pos

/-- Per-channel ambient/diffuse reflectance (header `struct Material`);
channels are carried as a `Vec3`. -/
structure Material where
  ambient : Vec3
  diffuse : Vec3

/-- Nearest-hit result returned by the intersection engine: ray parameter
of the hit, hit point and geometric normal. -/
structure Hit where
  tHit : ℝ
  point : Vec3
  normal : Vec3

/-- The external intersection engine for a fixed registered scene,
abstracted as a nearest-hit oracle: `none` means the ray misses. -/
def Scene : Type := Ray → Option Hit

/-- The empty scene: every ray misses. -/
def emptyScene : Scene := fun _ => none

/-- Any-hit (occlusion) query, consistent with the nearest-hit oracle:
a ray is occluded exactly when the nearest-hit query reports a hit. -/
def occludedQuery (scene : Scene) (r : Ray) : Bool := (scene r).isSome

/-- Largest finite IEEE single-precision value, the header's default `far`
(`std::numeric_limits<float>::max()`). -/
noncomputable def floatMax : ℝ := (2 - 2 ^ (-(23 : ℤ))) * 2 ^ (126 : ℕ) * 2

/-- Modelled from the spec: the shading of one sample ray in
`RayTracer::render_shaded` (body in the missing `src/RayTracer.cpp`).
A missed ray contributes black; a hit contributes the lambertian model
`ambient + diffuse * max(0, dot(normal, lightDir))` with a point light at
the camera position, `lightDir = normalize(cameraPos - hitPoint)`, and the
normal flipped to face the ray origin when `dot(normal, -rayDir) < 0`. -/
noncomputable def shadeSample (scene : Scene) (mat : Material) (camPos : Vec3)
    (r : Ray) : Vec3 :=
  match scene r with
  | none => Vec3.zero
  | some h =>
    let n := if Vec3.dot h.normal (-r.dir) < 0 then -h.normal else h.normal
    let lightDir := Vec3.normalize (camPos - h.point)
    let lam := max 0 (Vec3.dot n lightDir)
    ⟨mat.ambient.x + mat.diffuse.x * lam,
     mat.ambient.y + mat.diffuse.y * lam,
     mat.ambient.z + mat.diffuse.z * lam⟩

/-- Channel accessor: 0 is red, 1 green, 2 blue. -/
def Vec3.channel (a : Vec3) : ℕ → ℝ
  | 0 => a.x
  | 1 => a.y
  | 2 => a.z
  | _ => 0

/-- Clamp a channel value to [0, 1]. -/
noncomputable def clamp01 (r : ℝ) : ℝ := max 0 (min 1 r)

/-- Quantize a clamped channel value to the 8-bit output range. -/
noncomputable def quantize (r : ℝ) : ℤ := round (255 * clamp01 r)

/-- Modelled from the spec: per-sample film-plane offsets used by
`render_shaded`.  With `samples = 1` the single sample is taken at the
pixel center (offset 0.5); with more samples the offsets are produced by
the implementation's random jitter, abstracted here as an oracle. -/
noncomputable def sampleOffsets (samples : ℕ) (jitter : ℕ → ℝ × ℝ) :
    ℕ → ℝ × ℝ :=
  if samples = 1 then fun _ => (1 / 2, 1 / 2) else jitter

/-- The primary ray of sample `k` for pixel `(px, py)`:
`s = (px + offx)/width`, `t = (py + offy)/height`, parametric interval
`[0, floatMax)`. -/
noncomputable def pixelRay (cam : AnyCamera) (w h : ℕ) (samples : ℕ)
    (jitter : ℕ → ℝ × ℝ) (px py k : ℕ) : Ray :=
  let off := sampleOffsets samples jitter k
  cam.gen_ray ((px + off.1) / w) ((py + off.2) / h) 0 floatMax

/-- Modelled from the spec: the averaged color of one pixel of
`render_shaded` — the arithmetic mean over the per-pixel samples of the
sample colors. -/
noncomputable def pixelColor (scene : Scene) (mat : Material) (cam : AnyCamera)
    (w h samples : ℕ) (jitter : ℕ → ℝ × ℝ) (px py c : ℕ) : ℝ :=
  (∑ k ∈ Finset.range samples,
    (shadeSample scene mat cam.pos (pixelRay cam w h samples jitter px py k)).channel c)
    / samples

/-- Buffer index of channel `c` of pixel `(px, py)`: interleaved layout
stores `[RGBRGB...]`, planar stores `[RR..GG..BB..]`. -/
def pixelIndex (interleaved : Bool) (w h px py c : ℕ) : ℕ :=
  if interleaved then 3 * (py * w + px) + c
  else c * (w * h) + (py * w + px)

/-- Modelled from the spec: `RayTracer::render_shaded` (body in the
missing `src/RayTracer.cpp`).  Fills a flat `3 * width * height` buffer:
each channel of each pixel is the per-pixel mean sample color, clamped to
[0, 1] and quantized to 0-255; layout per `interleaved`. -/
noncomputable def render_shaded (scene : Scene) (mat : Material)
    (cam : AnyCamera) (w h samples : ℕ) (jitter : ℕ → ℝ × ℝ)
    (interleaved : Bool) : List ℤ :=
  (List.range (3 * (w * h))).map fun i =>
    let p := if interleaved then i / 3 else i % (w * h)
    let c := if interleaved then i % 3 else i / (w * h)
    quantize (pixelColor scene mat cam w h samples jitter (p % w) (p / w) c)

/-- The single centered ray of pixel `(px, py)` used by the depth and
silhouette modes (one sample per pixel, offset 0.5). -/
noncomputable def centerRay (cam : AnyCamera) (w h px py : ℕ) : Ray :=
  cam.gen_ray ((px + 1 / 2) / w) ((py + 1 / 2) / h) 0 floatMax

/-- Raw depth of a pixel: `none` when the centered ray misses, otherwise
the ray parameter `tHit` of the nearest hit. -/
noncomputable def rawDepth (scene : Scene) (cam : AnyCamera) (w h px py : ℕ) :
    Option ℝ :=
  (scene (centerRay cam w h px py)).map Hit.tHit

/-- Depths of all hit pixels of one render call, in row-major order. -/
noncomputable def hitDepths (scene : Scene) (cam : AnyCamera) (w h : ℕ) :
    List ℝ :=
  (List.range (w * h)).filterMap fun p => rawDepth scene cam w h (p % w) (p / w)

/-- Minimum of a list of reals (0 for the empty list). -/
noncomputable def listMin : List ℝ → ℝ
  | [] => 0
  | a :: l => l.foldl min a

/-- Maximum of a list of reals (0 for the empty list). -/
noncomputable def listMax : List ℝ → ℝ
  | [] => 0
  | a :: l => l.foldl max a

/-- Modelled from the spec: the tone-mapping of one hit depth in
`RayTracer::render_depth` — linear rescale of the depth against the
minimum and maximum depth observed across all hit pixels of the same
render call into the range [0, 255). -/
noncomputable def toneMap (lo hi d : ℝ) : ℝ := (d - lo) * 255 / (hi - lo)

/-- Modelled from the spec: `RayTracer::render_depth` (body in the missing
`src/RayTracer.cpp`).  One centered sample per pixel; a miss yields 0, a
hit yields `tHit`, tone-mapped against the frame's min/max hit depth when
requested. -/
noncomputable def render_depth (scene : Scene) (cam : AnyCamera) (w h : ℕ)
    (tone_mapped : Bool) : List ℝ :=
  (List.range (w * h)).map fun p =>
    match rawDepth scene cam w h (p % w) (p / w) with
    | none => 0
    | some d => if tone_mapped
        then toneMap (listMin (hitDepths scene cam w h))
          (listMax (hitDepths scene cam w h)) d
        else d

/-- Modelled from the spec: `RayTracer::render_silhouette` (body in the
missing `src/RayTracer.cpp`).  One centered sample per pixel through the
any-hit query; a hit yields the maximum channel value 255, a miss 0. -/
noncomputable def render_silhouette (scene : Scene) (cam : AnyCamera)
    (w h : ℕ) : List ℕ :=
  (List.range (w * h)).map fun p =>
    if occludedQuery scene (centerRay cam w h (p % w) (p / w)) then 255 else 0

/-- Geometry type (`RTCGeometryType`): triangles or quads. -/
inductive GeomType where
  | triangle
  | quad
deriving DecidableEq

/-- Element arity of a geometry type: 3 for triangle, 4 for quad. -/
def GeomType.arity : GeomType → ℕ
  | .triangle => 3
  | .quad => 4

/-- A mesh held by the geometry store: flat position and index buffers,
topology, and whether the buffers are shared (caller-owned) or copied. -/
structure Geometry where
  positions : List ℝ
  indices : List ℕ
  type : GeomType
  shared : Bool

/-- Buffer-size validation of `attach_geometry`: both buffer lengths must
be divisible by the element arity of the topology. -/
def validSizes (ty : GeomType) (positions : List ℝ) (indices : List ℕ) : Prop :=
  positions.length % ty.arity = 0 ∧ indices.length % ty.arity = 0

instance (ty : GeomType) (positions : List ℝ) (indices : List ℕ) :
    Decidable (validSizes ty positions indices) :=
  inferInstanceAs (Decidable (And _ _))

/-- The observable state of a `RayTracer`: at most one attached geometry,
identified by the mesh id the intersection engine handed out
(`_geom_id = -1` in the header becomes `attached = none`), a counter of
ids the engine has issued so far, and the active material. -/
structure RayTracer where
  attached : Option (ℕ × Geometry)
  nextId : ℕ
  material : Material

/-- A freshly constructed `RayTracer`: nothing attached. -/
def RayTracer.init (m : Material) : RayTracer := ⟨none, 0, m⟩

/-- A mesh id is resolvable when the store maps it to a geometry the
intersection engine can still be queried about. -/
def RayTracer.resolvable (st : RayTracer) (id : ℕ) : Prop :=
  ∃ g, st.attached = some (id, g)

/-- Store well-formedness: every resolvable id was issued in the past. -/
def RayTracer.WF (st : RayTracer) : Prop :=
  ∀ id g, st.attached = some (id, g) → id < st.nextId

/-- Modelled from the spec: the shared behavior of
`RayTracer::attach_geometry` and `attach_geometry_shared` (bodies in the
missing `src/RayTracer.cpp`).  Validation happens first (fail fast: on a
malformed buffer the store is left unchanged and an error is reported
synchronously); on success the previously attached geometry is released
and the new mesh is registered under a fresh id. -/
def attachWith (st : RayTracer) (positions : List ℝ) (indices : List ℕ)
    (ty : GeomType) (sharedBuf : Bool) : RayTracer × Option String :=
  if validSizes ty positions indices then
    ({ st with
        attached := some (st.nextId, ⟨positions, indices, ty, sharedBuf⟩),
        nextId := st.nextId + 1 },
      none)
  else (st, some "buffer size not divisible by element arity")

/-- `RayTracer::attach_geometry`: attach with copied (owned) buffers. -/
def RayTracer.attach_geometry (st : RayTracer) (positions : List ℝ)
    (indices : List ℕ) (ty : GeomType) : RayTracer × Option String :=
  attachWith st positions indices ty false

/-- `RayTracer::attach_geometry_shared`: attach with caller-owned
buffers. -/
def RayTracer.attach_geometry_shared (st : RayTracer) (positions : List ℝ)
    (indices : List ℕ) (ty : GeomType) : RayTracer × Option String :=
  attachWith st positions indices ty true

/-- `RayTracer::release_geometry`: deregister the attached geometry, if
any. -/
def RayTracer.release_geometry (st : RayTracer) : RayTracer :=
  { st with attached := none }

/-- The nearest-hit oracle the renderer queries, derived from the store:
an empty store yields the empty scene, otherwise the external engine's
oracle for the registered geometry. -/
def storeScene (engine : Geometry → Scene) (st : RayTracer) : Scene :=
  match st.attached with
  | none => emptyScene
  | some (_, g) => engine g

namespace Vec3

@[simp] theorem add_x (a b : Vec3) : (a + b).x = a.x + b.x := rfl
@[simp] theorem add_y (a b : Vec3) : (a + b).y = a.y + b.y := rfl
@[simp] theorem add_z (a b : Vec3) : (a + b).z = a.z + b.z := rfl
@[simp] theorem sub_x (a b : Vec3) : (a - b).x = a.x - b.x := rfl
@[simp] theorem sub_y (a b : Vec3) : (a - b).y = a.y - b.y := rfl
@[simp] theorem sub_z (a b : Vec3) : (a - b).z = a.z - b.z := rfl
@[simp] theorem neg_x (a : Vec3) : (-a).x = -a.x := rfl
@[simp] theorem neg_y (a : Vec3) : (-a).y = -a.y := rfl
@[simp] theorem neg_z (a : Vec3) : (-a).z = -a.z := rfl
@[simp] theorem smul_x (r : ℝ) (a : Vec3) : (r • a).x = r * a.x := rfl
@[simp] theorem smul_y (r : ℝ) (a : Vec3) : (r • a).y = r * a.y := rfl
@[simp] theorem smul_z (r : ℝ) (a : Vec3) : (r • a).z = r * a.z := rfl
@[simp] theorem zero_x : zero.x = 0 := rfl
@[simp] theorem zero_y : zero.y = 0 := rfl
@[simp] theorem zero_z : zero.z = 0 := rfl

theorem dot_self_nonneg (a : Vec3) : 0 ≤ dot a a := by
  unfold dot; nlinarith [sq_nonneg a.x, sq_nonneg a.y, sq_nonneg a.z]

theorem dot_self_eq_zero_iff (a : Vec3) : dot a a = 0 ↔ a = zero := by
  unfold dot
  constructor
  · intro h
    have hx : a.x = 0 ∧ a.y = 0 ∧ a.z = 0 := by
      constructor
      · nlinarith [sq_nonneg a.x, sq_nonneg a.y, sq_nonneg a.z]
      constructor
      · nlinarith [sq_nonneg a.x, sq_nonneg a.y, sq_nonneg a.z]
      · nlinarith [sq_nonneg a.x, sq_nonneg a.y, sq_nonneg a.z]
    ext <;> simp [hx.1, hx.2.1, hx.2.2]
  · intro h; subst h; simp

theorem dot_self_pos (a : Vec3) (h : a ≠ zero) : 0 < dot a a := by
  rcases lt_or_eq_of_le (dot_self_nonneg a) with hlt | heq
  · exact hlt
  · exact absurd ((dot_self_eq_zero_iff a).mp heq.symm) h

theorem norm_pos (a : Vec3) (h : a ≠ zero) : 0 < norm a :=
  Real.sqrt_pos.mpr (dot_self_pos a h)

theorem norm_sq (a : Vec3) : norm a * norm a = dot a a :=
  Real.mul_self_sqrt (dot_self_nonneg a)

theorem dot_smul_left (r : ℝ) (a b : Vec3) : dot (r • a) b = r * dot a b := by
  unfold dot; simp; ring

theorem dot_smul_right (r : ℝ) (a b : Vec3) : dot a (r • b) = r * dot a b := by
  unfold dot; simp; ring

theorem cross_smul_right (r : ℝ) (a b : Vec3) : cross a (r • b) = r • cross a b := by
  unfold cross; ext <;> simp <;> ring

theorem dot_cross_left (a b : Vec3) : dot (cross a b) a = 0 := by
  unfold dot cross; ring

theorem dot_cross_right (a b : Vec3) : dot (cross a b) b = 0 := by
  unfold dot cross; ring

/-- Lagrange identity specialized to the squared norm of a cross product. -/
theorem dot_cross_self (a b : Vec3) :
    dot (cross a b) (cross a b) = dot a a * dot b b - dot a b * dot a b := by
  unfold dot cross; ring

/-- The BAC-CAB expansion of a double cross product. -/
theorem cross_cross_expand (a b c : Vec3) :
    cross a (cross b c) = dot a c • b + (-(dot a b)) • c := by
  unfold cross dot; ext <;> simp <;> ring

theorem dot_normalize_self (a : Vec3) (h : a ≠ zero) :
    dot (normalize a) (normalize a) = 1 := by
  unfold normalize
  rw [dot_smul_left, dot_smul_right]
  have hpos : 0 < norm a := norm_pos a h
  have hsq : norm a * norm a = dot a a := norm_sq a
  field_simp
  nlinarith [hsq]

theorem norm_normalize (a : Vec3) (h : a ≠ zero) : norm (normalize a) = 1 := by
  unfold norm
  rw [dot_normalize_self a h, Real.sqrt_one]

theorem normalize_ne_zero (a : Vec3) (h : a ≠ zero) : normalize a ≠ zero := by
  intro hz
  have := dot_normalize_self a h
  rw [hz] at this
  simp [dot, zero] at this

theorem cross_zero_right (a : Vec3) : cross a zero = zero := by
  unfold cross; ext <;> simp

theorem smul_ne_zero_vec (r : ℝ) (a : Vec3) (hr : r ≠ 0) (ha : a ≠ zero) :
    r • a ≠ zero := by
  intro h
  apply ha
  have hx : r * a.x = 0 := congrArg Vec3.x h
  have hy : r * a.y = 0 := congrArg Vec3.y h
  have hz : r * a.z = 0 := congrArg Vec3.z h
  ext <;> simp
  · exact (mul_eq_zero.mp hx).resolve_left hr
  · exact (mul_eq_zero.mp hy).resolve_left hr
  · exact (mul_eq_zero.mp hz).resolve_left hr

theorem dot_comm (a b : Vec3) : dot a b = dot b a := by
  unfold dot; ring

theorem cross_normalize_right (a b : Vec3) :
    cross a (normalize b) = (1 / norm b) • cross a b := by
  unfold normalize; exact cross_smul_right _ _ _

theorem dot_normalize_cross (a b : Vec3) :
    dot (normalize (cross a b)) b = 0 := by
  unfold normalize
  rw [dot_smul_left, dot_cross_right, mul_zero]

end Vec3

/-- C2: for a fixed perspective camera, `gen_ray(s, t, near, far)` with
`s, t` in `[0, 1)` produces a ray whose origin is the camera position —
shared by all rays of the camera — and whose direction is
`normalize(-dir + (s*2-1)*halfWidth*u + (1-t*2)*halfHeight*v)` with
`halfHeight = tan(vfov/2)` (vfov in degrees) and
`halfWidth = halfHeight * aspect`. -/
theorem perspective_gen_ray_contract (c : PerspectiveCamera) (s t near far : ℝ)
    (hs0 : 0 ≤ s) (hs1 : s < 1) (ht0 : 0 ≤ t) (ht1 : t < 1) :
    (c.gen_ray s t near far).org = c.toCamera.pos ∧
    (c.gen_ray s t near far).dir =
      Vec3.normalize (-c.toCamera.dir
        + ((s * 2 - 1) * c.halfWidth) • c.toCamera.u
        + ((1 - t * 2) * c.halfHeight) • c.toCamera.v) ∧
    c.halfHeight = Real.tan (c.vfov * Real.pi / 180 / 2) ∧
    c.halfWidth = c.halfHeight * c.aspect ∧
    (∀ s2 t2 near2 far2,
      (c.gen_ray s2 t2 near2 far2).org = (c.gen_ray s t near far).org) :=
  ⟨rfl, rfl, rfl, rfl, fun _ _ _ _ => rfl⟩

/-- Witness for C2 at the default perspective camera and `s = t = 0`. -/
theorem perspective_gen_ray_contract_witness :
    (0 : ℝ) ≤ 0 ∧ (0 : ℝ) < 1 ∧
    (PerspectiveCamera.default.gen_ray 0 0 0 1).org
      = PerspectiveCamera.default.toCamera.pos :=
  ⟨le_refl 0, by norm_num,
    (perspective_gen_ray_contract PerspectiveCamera.default 0 0 0 1
      (le_refl 0) (by norm_num) (le_refl 0) (by norm_num)).1⟩

/-- C4: for a fixed orthogonal camera, `gen_ray(s, t, near, far)` with
`s, t` in `[0, 1)` produces a ray whose direction is the constant `-dir`
— shared by all rays of the camera, so all rays are parallel — and whose
origin is the camera position plus the planar offset
`(s*2-1)*halfWidth*u + (1-t*2)*halfHeight*v`. -/
theorem orthogonal_gen_ray_contract (c : OrthogonalCamera) (s t near far : ℝ)
    (hs0 : 0 ≤ s) (hs1 : s < 1) (ht0 : 0 ≤ t) (ht1 : t < 1) :
    (c.gen_ray s t near far).dir = -c.toCamera.dir ∧
    (c.gen_ray s t near far).org = c.toCamera.pos
      + ((s * 2 - 1) * c.halfWidth) • c.toCamera.u
      + ((1 - t * 2) * c.halfHeight) • c.toCamera.v ∧
    (∀ s2 t2 near2 far2,
      (c.gen_ray s2 t2 near2 far2).dir = (c.gen_ray s t near far).dir) :=
  ⟨rfl, rfl, fun _ _ _ _ => rfl⟩

/-- Witness for C4 at the default orthogonal camera and `s = t = 0`. -/
theorem orthogonal_gen_ray_contract_witness :
    (0 : ℝ) ≤ 0 ∧ (0 : ℝ) < 1 ∧
    (OrthogonalCamera.default.gen_ray 0 0 0 1).dir
      = -OrthogonalCamera.default.toCamera.dir :=
  ⟨le_refl 0, by norm_num,
    (orthogonal_gen_ray_contract OrthogonalCamera.default 0 0 0 1
      (le_refl 0) (by norm_num) (le_refl 0) (by norm_num)).1⟩

/-- C10 counterexample: the header's default constructor
`PerspectiveCamera() : Camera()` — code visible in src/ — delegates to
the base-class member initializers only, so the film plane, which
carries the perspective fov state per the spec's `set_fov` contract,
stays at 256 x 256; this differs from the film a vfov-90 / aspect-1
camera would carry (half-height `tan(45 degrees) = 1`).  Hence a
default-constructed `PerspectiveCamera` does not default to vfov 90 and
aspect 1. -/
theorem default_perspective_camera_counterexample :
    PerspectiveCamera.defaultCtor = Camera.default ∧
    PerspectiveCamera.defaultCtor.film.height
      ≠ (PerspectiveCamera.ctorFilm 90 1).height := by
  refine ⟨rfl, ?_⟩
  show (256 : ℝ) ≠ Real.tan (90 * Real.pi / 180 / 2)
  have h4 : (90 : ℝ) * Real.pi / 180 / 2 = Real.pi / 4 := by ring
  rw [h4, Real.tan_pi_div_four]
  norm_num

/-- C10 (amended): a default-constructed camera — base `Camera`,
`PerspectiveCamera` or `OrthogonalCamera`, whose default constructors
delegate to the base-class member initializers — already satisfies the
orthonormal right-handed basis invariant, with position `(0,0,0)`,
`u = (1,0,0)`, `v = (0,1,0)`, `dir = (0,0,1)` and a 256 x 256 film
plane, so `gen_ray` is well-defined on a freshly constructed camera; the
parameterized constructor's declared defaults vfov = 90, aspect = 1 are
not applied by default construction. -/
theorem default_camera_basis_invariant :
    Camera.default.pos = ⟨0, 0, 0⟩ ∧
    Camera.default.u = ⟨1, 0, 0⟩ ∧
    Camera.default.v = ⟨0, 1, 0⟩ ∧
    Camera.default.dir = ⟨0, 0, 1⟩ ∧
    Camera.default.film.width = 256 ∧
    Camera.default.film.height = 256 ∧
    PerspectiveCamera.defaultCtor = Camera.default ∧
    OrthogonalCamera.default.toCamera = Camera.default ∧
    Vec3.dot Camera.default.u Camera.default.v = 0 ∧
    Vec3.dot Camera.default.u Camera.default.dir = 0 ∧
    Vec3.dot Camera.default.v Camera.default.dir = 0 ∧
    Vec3.norm Camera.default.u = 1 ∧
    Vec3.norm Camera.default.v = 1 ∧
    Vec3.norm Camera.default.dir = 1 ∧
    Vec3.cross Camera.default.u Camera.default.v = Camera.default.dir := by
  refine ⟨rfl, rfl, rfl, rfl, rfl, rfl, rfl, rfl, ?_, ?_, ?_, ?_, ?_, ?_, ?_⟩
  · show Vec3.dot ⟨1, 0, 0⟩ ⟨0, 1, 0⟩ = 0
    unfold Vec3.dot; norm_num
  · show Vec3.dot ⟨1, 0, 0⟩ ⟨0, 0, 1⟩ = 0
    unfold Vec3.dot; norm_num
  · show Vec3.dot ⟨0, 1, 0⟩ ⟨0, 0, 1⟩ = 0
    unfold Vec3.dot; norm_num
  · show Vec3.norm ⟨1, 0, 0⟩ = 1
    unfold Vec3.norm Vec3.dot; norm_num
  · show Vec3.norm ⟨0, 1, 0⟩ = 1
    unfold Vec3.norm Vec3.dot; norm_num
  · show Vec3.norm ⟨0, 0, 1⟩ = 1
    unfold Vec3.norm Vec3.dot; norm_num
  · show Vec3.cross ⟨1, 0, 0⟩ ⟨0, 1, 0⟩ = ⟨0, 0, 1⟩
    unfold Vec3.cross; norm_num

/-- C3: for every position, focus and up with up not parallel to
`position - focus` (their cross product is nonzero), `lookat` sets
`dir = normalize(position - focus)`, `u = normalize(up x dir)`,
`v = dir x u`, and this basis is orthonormal and right-handed: the dot
products of distinct axes are 0, each axis has unit length, and
`u x v = dir`. -/
theorem lookat_orthonormal (c : Camera) (position focus up : Vec3)
    (h : Vec3.cross up (position - focus) ≠ Vec3.zero) :
    (c.lookat position focus up).dir = Vec3.normalize (position - focus) ∧
    (c.lookat position focus up).u
      = Vec3.normalize (Vec3.cross up (c.lookat position focus up).dir) ∧
    (c.lookat position focus up).v
      = Vec3.cross (c.lookat position focus up).dir (c.lookat position focus up).u ∧
    Vec3.dot (c.lookat position focus up).u (c.lookat position focus up).v = 0 ∧
    Vec3.dot (c.lookat position focus up).u (c.lookat position focus up).dir = 0 ∧
    Vec3.dot (c.lookat position focus up).v (c.lookat position focus up).dir = 0 ∧
    Vec3.norm (c.lookat position focus up).u = 1 ∧
    Vec3.norm (c.lookat position focus up).v = 1 ∧
    Vec3.norm (c.lookat position focus up).dir = 1 ∧
    Vec3.cross (c.lookat position focus up).u (c.lookat position focus up).v
      = (c.lookat position focus up).dir := by
  have hw : position - focus ≠ Vec3.zero := by
    intro hz
    rw [hz, Vec3.cross_zero_right] at h
    exact h rfl
  have hnw : 0 < Vec3.norm (position - focus) := Vec3.norm_pos _ hw
  have hcu_ne : Vec3.cross up (Vec3.normalize (position - focus)) ≠ Vec3.zero := by
    rw [Vec3.cross_normalize_right]
    exact Vec3.smul_ne_zero_vec _ _ (one_div_ne_zero (ne_of_gt hnw)) h
  have hdd : Vec3.dot (Vec3.normalize (position - focus))
      (Vec3.normalize (position - focus)) = 1 := Vec3.dot_normalize_self _ hw
  have huu : Vec3.dot (Vec3.normalize (Vec3.cross up (Vec3.normalize (position - focus))))
      (Vec3.normalize (Vec3.cross up (Vec3.normalize (position - focus)))) = 1 :=
    Vec3.dot_normalize_self _ hcu_ne
  have hud : Vec3.dot (Vec3.normalize (Vec3.cross up (Vec3.normalize (position - focus))))
      (Vec3.normalize (position - focus)) = 0 :=
    Vec3.dot_normalize_cross up (Vec3.normalize (position - focus))
  refine ⟨rfl, rfl, rfl, ?_, ?_, ?_, ?_, ?_, ?_, ?_⟩
  · show Vec3.dot (Vec3.normalize (Vec3.cross up (Vec3.normalize (position - focus))))
      (Vec3.cross (Vec3.normalize (position - focus))
        (Vec3.normalize (Vec3.cross up (Vec3.normalize (position - focus))))) = 0
    rw [Vec3.dot_comm]
    exact Vec3.dot_cross_right _ _
  · exact hud
  · show Vec3.dot (Vec3.cross (Vec3.normalize (position - focus))
      (Vec3.normalize (Vec3.cross up (Vec3.normalize (position - focus)))))
      (Vec3.normalize (position - focus)) = 0
    exact Vec3.dot_cross_left _ _
  · exact Vec3.norm_normalize _ hcu_ne
  · show Vec3.norm (Vec3.cross (Vec3.normalize (position - focus))
      (Vec3.normalize (Vec3.cross up (Vec3.normalize (position - focus))))) = 1
    unfold Vec3.norm
    rw [Vec3.dot_cross_self, hdd, huu, Vec3.dot_comm _ _, hud]
    norm_num
  · exact Vec3.norm_normalize _ hw
  · show Vec3.cross (Vec3.normalize (Vec3.cross up (Vec3.normalize (position - focus))))
      (Vec3.cross (Vec3.normalize (position - focus))
        (Vec3.normalize (Vec3.cross up (Vec3.normalize (position - focus)))))
      = Vec3.normalize (position - focus)
    rw [Vec3.cross_cross_expand, huu, hud]
    ext <;> simp

/-- Witness for C3: camera at `(0,0,1)` looking at the origin, up
`(0,1,0)`; the hypothesis holds and the resulting `u` axis has unit
length. -/
theorem lookat_orthonormal_witness :
    Vec3.cross ⟨0, 1, 0⟩ ((⟨0, 0, 1⟩ : Vec3) - ⟨0, 0, 0⟩) ≠ Vec3.zero ∧
    Vec3.norm ((Camera.default.lookat ⟨0, 0, 1⟩ ⟨0, 0, 0⟩ ⟨0, 1, 0⟩).u) = 1 := by
  have hne : Vec3.cross ⟨0, 1, 0⟩ ((⟨0, 0, 1⟩ : Vec3) - ⟨0, 0, 0⟩) ≠ Vec3.zero := by
    intro hz
    have hx := congrArg Vec3.x hz
    simp [Vec3.cross, Vec3.zero] at hx
  exact ⟨hne,
    (lookat_orthonormal Camera.default ⟨0, 0, 1⟩ ⟨0, 0, 0⟩ ⟨0, 1, 0⟩ hne).2.2.2.2.2.2.1⟩

/-- C7: attaching geometry (owned or shared) on a store that already
holds attached geometry replaces it: afterwards the store holds exactly
the new geometry under the freshly issued mesh id, that id is the only
resolvable one (at most one registered mesh id at any time), and the old
mesh id is no longer resolvable.  `attach_geometry` and
`attach_geometry_shared` are both instances of `attachWith`. -/
theorem attach_replaces_previous (st : RayTracer) (positions : List ℝ)
    (indices : List ℕ) (ty : GeomType) (sharedBuf : Bool)
    (oldId : ℕ) (oldG : Geometry)
    (hwf : st.WF) (hold : st.attached = some (oldId, oldG))
    (hv : validSizes ty positions indices) :
    (attachWith st positions indices ty sharedBuf).1.attached
      = some (st.nextId, ⟨positions, indices, ty, sharedBuf⟩) ∧
    (∀ id, (attachWith st positions indices ty sharedBuf).1.resolvable id
      ↔ id = st.nextId) ∧
    ¬ (attachWith st positions indices ty sharedBuf).1.resolvable oldId ∧
    RayTracer.attach_geometry st positions indices ty
      = attachWith st positions indices ty false ∧
    RayTracer.attach_geometry_shared st positions indices ty
      = attachWith st positions indices ty true := by
  have hstep : (attachWith st positions indices ty sharedBuf).1
      = { st with
          attached := some (st.nextId, ⟨positions, indices, ty, sharedBuf⟩),
          nextId := st.nextId + 1 } := by
    unfold attachWith
    rw [if_pos hv]
  have hres : ∀ id, (attachWith st positions indices ty sharedBuf).1.resolvable id
      ↔ id = st.nextId := by
    intro id
    unfold RayTracer.resolvable
    rw [hstep]
    constructor
    · rintro ⟨g, hg⟩
      have := (Option.some.injEq _ _).mp hg
      exact (Prod.mk.injEq _ _ _ _).mp this |>.1.symm
    · rintro rfl
      exact ⟨_, rfl⟩
  have hlt : oldId < st.nextId := hwf oldId oldG hold
  refine ⟨by rw [hstep], hres, ?_, rfl, rfl⟩
  intro hcontra
  have := (hres oldId).mp hcontra
  omega

/-- Witness for C7: a store holding mesh id 0 with counter 1; attaching a
valid empty triangle buffer makes id 0 unresolvable. -/
theorem attach_replaces_previous_witness :
    validSizes GeomType.triangle [] [] ∧
    ¬ (attachWith
        ⟨some (0, ⟨[], [], GeomType.triangle, false⟩), 1, ⟨Vec3.zero, Vec3.zero⟩⟩
        [] [] GeomType.triangle true).1.resolvable 0 := by
  have hwf : (⟨some (0, ⟨[], [], GeomType.triangle, false⟩), 1,
      ⟨Vec3.zero, Vec3.zero⟩⟩ : RayTracer).WF := by
    intro id g hg
    have := (Option.some.injEq _ _).mp hg
    have hid := (Prod.mk.injEq _ _ _ _).mp this |>.1
    show id < 1
    omega
  exact ⟨⟨rfl, rfl⟩,
    (attach_replaces_previous _ [] [] GeomType.triangle true 0 _ hwf rfl
      ⟨rfl, rfl⟩).2.2.1⟩

/-- C8: `attach_geometry` validates that the buffer lengths are divisible
by the element arity of the topology (3 for triangle, 4 for quad); on a
malformed buffer it fails fast — the attach is rejected, the error is
reported synchronously to the caller, and the store (in particular any
previously attached geometry) is left untouched, the error being detected
before any deregistration; on valid buffers the attach succeeds and the
store holds the new geometry. -/
theorem attach_validation (st : RayTracer) (positions : List ℝ)
    (indices : List ℕ) (ty : GeomType) (sharedBuf : Bool) :
    (¬ validSizes ty positions indices →
      attachWith st positions indices ty sharedBuf
        = (st, some "buffer size not divisible by element arity")) ∧
    (validSizes ty positions indices →
      (attachWith st positions indices ty sharedBuf).2 = none ∧
      (attachWith st positions indices ty sharedBuf).1.attached
        = some (st.nextId, ⟨positions, indices, ty, sharedBuf⟩)) ∧
    (GeomType.triangle.arity = 3 ∧ GeomType.quad.arity = 4) ∧
    (validSizes ty positions indices ↔
      positions.length % ty.arity = 0 ∧ indices.length % ty.arity = 0) ∧
    RayTracer.attach_geometry st positions indices ty
      = attachWith st positions indices ty false ∧
    RayTracer.attach_geometry_shared st positions indices ty
      = attachWith st positions indices ty true := by
  refine ⟨?_, ?_, ⟨rfl, rfl⟩, Iff.rfl, rfl, rfl⟩
  · intro hnv
    unfold attachWith
    rw [if_neg hnv]
  · intro hv
    unfold attachWith
    rw [if_pos hv]
    exact ⟨rfl, rfl⟩

/-- Witness for C8: a one-float position buffer is rejected for triangle
topology and the store is returned unchanged with a synchronous error. -/
theorem attach_validation_witness :
    ¬ validSizes GeomType.triangle [(0 : ℝ)] [] ∧
    RayTracer.attach_geometry (RayTracer.init ⟨Vec3.zero, Vec3.zero⟩)
        [(0 : ℝ)] [] GeomType.triangle
      = (RayTracer.init ⟨Vec3.zero, Vec3.zero⟩,
          some "buffer size not divisible by element arity") := by
  have hnv : ¬ validSizes GeomType.triangle [(0 : ℝ)] [] := by
    intro hv
    exact absurd hv.1 (by decide)
  refine ⟨hnv, ?_⟩
  have h := attach_validation (RayTracer.init ⟨Vec3.zero, Vec3.zero⟩)
    [(0 : ℝ)] [] GeomType.triangle false
  exact h.2.2.2.2.1.trans (h.1 hnv)

theorem channel_zero (c : ℕ) : Vec3.zero.channel c = 0 := by
  rcases c with _ | _ | _ | c <;> rfl

theorem shadeSample_none (scene : Scene) (mat : Material) (p : Vec3) (r : Ray)
    (h : scene r = none) : shadeSample scene mat p r = Vec3.zero := by
  unfold shadeSample
  rw [h]

theorem pixelColor_none (scene : Scene) (mat : Material) (cam : AnyCamera)
    (w h samples : ℕ) (jitter : ℕ → ℝ × ℝ) (px py c : ℕ)
    (hn : ∀ r, scene r = none) :
    pixelColor scene mat cam w h samples jitter px py c = 0 := by
  unfold pixelColor
  rw [Finset.sum_congr rfl fun k _ => by
    rw [shadeSample_none scene mat cam.pos _ (hn _), channel_zero]]
  simp

theorem quantize_zero : quantize 0 = 0 := by
  unfold quantize clamp01
  norm_num

/-- C9: `release_geometry` is idempotent (a no-op when nothing is
attached), and once the geometry has been released the scene the renderer
queries is the empty scene, so every subsequent render call — shaded,
depth or silhouette, for every camera and image dimensions — reports no
hit for every pixel and produces a full background/zero image. -/
theorem release_renders_background (st : RayTracer) (engine : Geometry → Scene)
    (mat : Material) (cam : AnyCamera) (w h samples : ℕ) (jitter : ℕ → ℝ × ℝ)
    (interleaved tm : Bool) (i : ℕ) :
    st.release_geometry.release_geometry = st.release_geometry ∧
    (st.attached = none → st.release_geometry = st) ∧
    (∀ r, storeScene engine st.release_geometry r = none) ∧
    (i < 3 * (w * h) →
      (render_shaded (storeScene engine st.release_geometry) mat cam w h
        samples jitter interleaved)[i]? = some 0) ∧
    (i < w * h →
      (render_depth (storeScene engine st.release_geometry) cam w h tm)[i]?
        = some 0) ∧
    (i < w * h →
      (render_silhouette (storeScene engine st.release_geometry) cam w h)[i]?
        = some 0) := by
  have hn : ∀ r, storeScene engine st.release_geometry r = none := fun _ => rfl
  refine ⟨rfl, ?_, hn, ?_, ?_, ?_⟩
  · intro hnone
    cases st
    simp only [RayTracer.release_geometry] at *
    simp_all
  · intro hi
    unfold render_shaded
    rw [List.getElem?_map, List.getElem?_range hi]
    simp only [Option.map_some']
    rw [pixelColor_none _ _ _ _ _ _ _ _ _ _ hn, quantize_zero]
  · intro hi
    unfold render_depth
    rw [List.getElem?_map, List.getElem?_range hi]
    simp only [Option.map_some']
    have : rawDepth (storeScene engine st.release_geometry) cam w h
        (i % w) (i / w) = none := by
      unfold rawDepth
      rw [hn]
      rfl
    rw [this]
  · intro hi
    unfold render_silhouette
    rw [List.getElem?_map, List.getElem?_range hi]
    simp only [Option.map_some']
    have : occludedQuery (storeScene engine st.release_geometry)
        (centerRay cam w h (i % w) (i / w)) = false := by
      unfold occludedQuery
      rw [hn]
      rfl
    rw [this]
    rfl

theorem pixel_encode (w h px py : ℕ) (hx : px < w) (hy : py < h) :
    (py * w + px) % w = px ∧ (py * w + px) / w = py ∧ py * w + px < w * h := by
  have hw0 : 0 < w := by omega
  refine ⟨?_, ?_, ?_⟩
  · rw [Nat.add_comm, Nat.add_mul_mod_self_right, Nat.mod_eq_of_lt hx]
  · rw [Nat.add_comm, Nat.add_mul_div_right _ _ hw0, Nat.div_eq_of_lt hx,
      Nat.zero_add]
  · calc py * w + px < py * w + w := by omega
      _ = (py + 1) * w := by ring
      _ ≤ h * w := Nat.mul_le_mul_right w (by omega)
      _ = w * h := Nat.mul_comm h w

theorem foldl_min_le_init (l : List ℝ) : ∀ a : ℝ, l.foldl min a ≤ a := by
  induction l with
  | nil => intro a; exact le_refl a
  | cons b t ih =>
    intro a
    exact le_trans (ih (min a b)) (min_le_left a b)

theorem foldl_min_le_mem (l : List ℝ) :
    ∀ a : ℝ, ∀ d ∈ l, l.foldl min a ≤ d := by
  induction l with
  | nil => intro a d hd; cases hd
  | cons b t ih =>
    intro a d hd
    rcases List.mem_cons.mp hd with rfl | hmem
    · exact le_trans (foldl_min_le_init t (min a d)) (min_le_right a d)
    · exact ih (min a b) d hmem

theorem foldl_min_mem_or (l : List ℝ) :
    ∀ a : ℝ, l.foldl min a = a ∨ l.foldl min a ∈ l := by
  induction l with
  | nil => intro a; exact Or.inl rfl
  | cons b t ih =>
    intro a
    rcases ih (min a b) with he | hm
    · rcases min_choice a b with hc | hc
      · exact Or.inl (by rw [List.foldl_cons, he, hc])
      · exact Or.inr (by rw [List.foldl_cons, he, hc]; exact List.mem_cons_self b t)
    · exact Or.inr (List.mem_cons_of_mem b hm)

theorem foldl_max_le_init (l : List ℝ) : ∀ a : ℝ, a ≤ l.foldl max a := by
  induction l with
  | nil => intro a; exact le_refl a
  | cons b t ih =>
    intro a
    exact le_trans (le_max_left a b) (ih (max a b))

theorem foldl_max_le_mem (l : List ℝ) :
    ∀ a : ℝ, ∀ d ∈ l, d ≤ l.foldl max a := by
  induction l with
  | nil => intro a d hd; cases hd
  | cons b t ih =>
    intro a d hd
    rcases List.mem_cons.mp hd with rfl | hmem
    · exact le_trans (le_max_right a d) (foldl_max_le_init t (max a d))
    · exact ih (max a b) d hmem

theorem foldl_max_mem_or (l : List ℝ) :
    ∀ a : ℝ, l.foldl max a = a ∨ l.foldl max a ∈ l := by
  induction l with
  | nil => intro a; exact Or.inl rfl
  | cons b t ih =>
    intro a
    rcases ih (max a b) with he | hm
    · rcases max_choice a b with hc | hc
      · exact Or.inl (by rw [List.foldl_cons, he, hc])
      · exact Or.inr (by rw [List.foldl_cons, he, hc]; exact List.mem_cons_self b t)
    · exact Or.inr (List.mem_cons_of_mem b hm)

theorem listMin_le (l : List ℝ) (d : ℝ) (hd : d ∈ l) : listMin l ≤ d := by
  cases l with
  | nil => cases hd
  | cons a t =>
    unfold listMin
    rcases List.mem_cons.mp hd with rfl | hmem
    · exact foldl_min_le_init t d
    · exact foldl_min_le_mem t a d hmem

theorem le_listMax (l : List ℝ) (d : ℝ) (hd : d ∈ l) : d ≤ listMax l := by
  cases l with
  | nil => cases hd
  | cons a t =>
    unfold listMax
    rcases List.mem_cons.mp hd with rfl | hmem
    · exact foldl_max_le_init t d
    · exact foldl_max_le_mem t a d hmem

theorem listMin_mem (l : List ℝ) (h : l ≠ []) : listMin l ∈ l := by
  cases l with
  | nil => exact absurd rfl h
  | cons a t =>
    show t.foldl min a ∈ a :: t
    rcases foldl_min_mem_or t a with he | hm
    · rw [he]; exact List.mem_cons_self a t
    · exact List.mem_cons_of_mem a hm

theorem listMax_mem (l : List ℝ) (h : l ≠ []) : listMax l ∈ l := by
  cases l with
  | nil => exact absurd rfl h
  | cons a t =>
    show t.foldl max a ∈ a :: t
    rcases foldl_max_mem_or t a with he | hm
    · rw [he]; exact List.mem_cons_self a t
    · exact List.mem_cons_of_mem a hm

theorem hitDepths_mem (scene : Scene) (cam : AnyCamera) (w h : ℕ)
    (hw0 : 0 < w) (d : ℝ) :
    d ∈ hitDepths scene cam w h ↔
      ∃ qx qy, qx < w ∧ qy < h ∧ rawDepth scene cam w h qx qy = some d := by
  unfold hitDepths
  rw [List.mem_filterMap]
  constructor
  · rintro ⟨p, hp, hd⟩
    rw [List.mem_range] at hp
    refine ⟨p % w, p / w, Nat.mod_lt p hw0, ?_, hd⟩
    rw [Nat.div_lt_iff_lt_mul hw0, Nat.mul_comm h w]
    exact hp
  · rintro ⟨qx, qy, hqx, hqy, hd⟩
    obtain ⟨e1, e2, e3⟩ := pixel_encode w h qx qy hqx hqy
    refine ⟨qy * w + qx, List.mem_range.mpr e3, ?_⟩
    rw [e1, e2]
    exact hd

/-- C1: every channel of every pixel of `render_shaded` is the arithmetic
mean, over the `samples` per-pixel samples, of the sample colors — a
missed sample contributing black and a hit sample contributing
`ambient + diffuse * max(0, dot(normal, lightDir))` with the point light
at the camera position, `lightDir = normalize(cameraPos - hitPoint)` and
the normal flipped when `dot(normal, -rayDir) < 0` — clamped to [0, 1]
and then quantized to the 8-bit output range; with `samples = 1` the
single sample is taken at the pixel center (offset 0.5). -/
theorem render_shaded_pixel (scene : Scene) (mat : Material) (cam : AnyCamera)
    (w h samples : ℕ) (jitter : ℕ → ℝ × ℝ) (interleaved : Bool)
    (px py c : ℕ) (hx : px < w) (hy : py < h) (hc : c < 3) :
    (render_shaded scene mat cam w h samples jitter
        interleaved)[pixelIndex interleaved w h px py c]?
      = some (quantize (pixelColor scene mat cam w h samples jitter px py c)) ∧
    pixelColor scene mat cam w h samples jitter px py c
      = (∑ k ∈ Finset.range samples,
          (shadeSample scene mat cam.pos
            (pixelRay cam w h samples jitter px py k)).channel c) / samples ∧
    (∀ r, scene r = none → shadeSample scene mat cam.pos r = Vec3.zero) ∧
    (∀ r hit, scene r = some hit →
      shadeSample scene mat cam.pos r =
        ⟨mat.ambient.x + mat.diffuse.x * max 0 (Vec3.dot
            (if Vec3.dot hit.normal (-r.dir) < 0 then -hit.normal else hit.normal)
            (Vec3.normalize (cam.pos - hit.point))),
         mat.ambient.y + mat.diffuse.y * max 0 (Vec3.dot
            (if Vec3.dot hit.normal (-r.dir) < 0 then -hit.normal else hit.normal)
            (Vec3.normalize (cam.pos - hit.point))),
         mat.ambient.z + mat.diffuse.z * max 0 (Vec3.dot
            (if Vec3.dot hit.normal (-r.dir) < 0 then -hit.normal else hit.normal)
            (Vec3.normalize (cam.pos - hit.point)))⟩) ∧
    (∀ z, quantize z = round (255 * max 0 (min 1 z))) ∧
    (samples = 1 → ∀ k, sampleOffsets samples jitter k = (1 / 2, 1 / 2)) ∧
    (∀ k, pixelRay cam w h samples jitter px py k
      = cam.gen_ray ((px + (sampleOffsets samples jitter k).1) / w)
          ((py + (sampleOffsets samples jitter k).2) / h) 0 floatMax) := by
  obtain ⟨e1, e2, e3⟩ := pixel_encode w h px py hx hy
  refine ⟨?_, rfl, ?_, ?_, fun z => rfl, ?_, fun k => rfl⟩
  · cases interleaved
    · have hwh0 : 0 < w * h := by omega
      have hidx : c * (w * h) + (py * w + px) < 3 * (w * h) := by
        have hcle : c * (w * h) ≤ 2 * (w * h) := Nat.mul_le_mul_right _ (by omega)
        omega
      have f1 : (c * (w * h) + (py * w + px)) % (w * h) = py * w + px := by
        rw [Nat.add_comm, Nat.add_mul_mod_self_right, Nat.mod_eq_of_lt e3]
      have f2 : (c * (w * h) + (py * w + px)) / (w * h) = c := by
        rw [Nat.add_comm, Nat.add_mul_div_right _ _ hwh0, Nat.div_eq_of_lt e3,
          Nat.zero_add]
      show (render_shaded scene mat cam w h samples jitter
          false)[c * (w * h) + (py * w + px)]? = _
      unfold render_shaded
      rw [List.getElem?_map, List.getElem?_range hidx]
      simp only [Option.map_some', Bool.false_eq_true, if_false]
      rw [f1, f2, e1, e2]
    · have hidx : 3 * (py * w + px) + c < 3 * (w * h) := by omega
      have f1 : (3 * (py * w + px) + c) / 3 = py * w + px := by omega
      have f2 : (3 * (py * w + px) + c) % 3 = c := by omega
      show (render_shaded scene mat cam w h samples jitter
          true)[3 * (py * w + px) + c]? = _
      unfold render_shaded
      rw [List.getElem?_map, List.getElem?_range hidx]
      simp only [Option.map_some', if_true]
      rw [f1, f2, e1, e2]
  · intro r hr
    exact shadeSample_none scene mat cam.pos r hr
  · intro r hit hr
    unfold shadeSample
    rw [hr]
  · intro h1 k
    subst h1
    unfold sampleOffsets
    simp

/-- Witness for C1 on a 1 x 1 all-miss scene: the first interleaved
channel equals the quantized mean sample color. -/
theorem render_shaded_pixel_witness :
    (0 : ℕ) < 1 ∧ (0 : ℕ) < 3 ∧
    (render_shaded emptyScene ⟨Vec3.zero, Vec3.zero⟩
        (AnyCamera.persp PerspectiveCamera.default) 1 1 1 (fun _ => (0, 0))
        true)[pixelIndex true 1 1 0 0 0]?
      = some (quantize (pixelColor emptyScene ⟨Vec3.zero, Vec3.zero⟩
          (AnyCamera.persp PerspectiveCamera.default) 1 1 1
          (fun _ => (0, 0)) 0 0 0)) :=
  ⟨Nat.one_pos, by norm_num,
    (render_shaded_pixel emptyScene ⟨Vec3.zero, Vec3.zero⟩
      (AnyCamera.persp PerspectiveCamera.default) 1 1 1 (fun _ => (0, 0))
      true 0 0 0 Nat.one_pos Nat.one_pos (by norm_num)).1⟩

/-- C5: every pixel of `render_depth` is a single centered sample; a miss
yields 0 and a hit yields the ray parameter `tHit`; with tone mapping
requested, a hit is instead rescaled linearly against the minimum and
maximum depth observed across all hit pixels of the same render call
(`listMin`/`listMax` of `hitDepths` are genuinely that minimum and
maximum, and `hitDepths` collects exactly the hit pixels of the call). -/
theorem render_depth_pixel (scene : Scene) (cam : AnyCamera) (w h : ℕ)
    (tm : Bool) (px py : ℕ) (hx : px < w) (hy : py < h) :
    (render_depth scene cam w h tm)[py * w + px]?
      = some (match rawDepth scene cam w h px py with
          | none => 0
          | some d => if tm
              then toneMap (listMin (hitDepths scene cam w h))
                (listMax (hitDepths scene cam w h)) d
              else d) ∧
    rawDepth scene cam w h px py
      = (scene (centerRay cam w h px py)).map Hit.tHit ∧
    centerRay cam w h px py
      = cam.gen_ray ((px + 1 / 2) / w) ((py + 1 / 2) / h) 0 floatMax ∧
    (∀ lo hi d, toneMap lo hi d = (d - lo) * 255 / (hi - lo)) ∧
    (∀ d, d ∈ hitDepths scene cam w h →
      listMin (hitDepths scene cam w h) ≤ d ∧
      d ≤ listMax (hitDepths scene cam w h)) ∧
    (hitDepths scene cam w h ≠ [] →
      listMin (hitDepths scene cam w h) ∈ hitDepths scene cam w h ∧
      listMax (hitDepths scene cam w h) ∈ hitDepths scene cam w h) ∧
    (∀ d, d ∈ hitDepths scene cam w h ↔
      ∃ qx qy, qx < w ∧ qy < h ∧ rawDepth scene cam w h qx qy = some d) := by
  obtain ⟨e1, e2, e3⟩ := pixel_encode w h px py hx hy
  refine ⟨?_, rfl, rfl, fun lo hi d => rfl, ?_, ?_, ?_⟩
  · unfold render_depth
    rw [List.getElem?_map, List.getElem?_range e3]
    simp only [Option.map_some']
    rw [e1, e2]
  · intro d hd
    exact ⟨listMin_le _ d hd, le_listMax _ d hd⟩
  · intro hne
    exact ⟨listMin_mem _ hne, listMax_mem _ hne⟩
  · intro d
    exact hitDepths_mem scene cam w h (by omega) d

/-- Witness for C5 on a 1 x 1 all-miss scene: the single depth pixel is
present and matches the per-pixel formula. -/
theorem render_depth_pixel_witness :
    (0 : ℕ) < 1 ∧
    (render_depth emptyScene (AnyCamera.persp PerspectiveCamera.default)
        1 1 true)[(0 : ℕ) * 1 + 0]?
      = some (match rawDepth emptyScene
            (AnyCamera.persp PerspectiveCamera.default) 1 1 0 0 with
          | none => 0
          | some d => if true
              then toneMap
                (listMin (hitDepths emptyScene
                  (AnyCamera.persp PerspectiveCamera.default) 1 1))
                (listMax (hitDepths emptyScene
                  (AnyCamera.persp PerspectiveCamera.default) 1 1)) d
              else d) :=
  ⟨Nat.one_pos,
    (render_depth_pixel emptyScene (AnyCamera.persp PerspectiveCamera.default)
      1 1 true 0 0 Nat.one_pos Nat.one_pos).1⟩

/-- C6: every pixel of `render_silhouette` is a single centered sample
through the any-hit query, with binary output — the maximum channel value
255 on a hit and 0 on a miss — and for the same camera, scene and image
dimensions a silhouette pixel is 255 exactly when the corresponding
`render_depth` pixel is a hit (the two modes agree on the visibility
mask). -/
theorem render_silhouette_binary (scene : Scene) (cam : AnyCamera) (w h : ℕ)
    (px py : ℕ) (hx : px < w) (hy : py < h) :
    (render_silhouette scene cam w h)[py * w + px]?
      = some (if occludedQuery scene (centerRay cam w h px py)
          then 255 else 0) ∧
    (∀ q ∈ render_silhouette scene cam w h, q = 255 ∨ q = 0) ∧
    ((render_silhouette scene cam w h)[py * w + px]? = some 255 ↔
      rawDepth scene cam w h px py ≠ none) ∧
    ((render_silhouette scene cam w h)[py * w + px]? = some 0 ↔
      rawDepth scene cam w h px py = none) := by
  obtain ⟨e1, e2, e3⟩ := pixel_encode w h px py hx hy
  have h1 : (render_silhouette scene cam w h)[py * w + px]?
      = some (if occludedQuery scene (centerRay cam w h px py)
          then 255 else 0) := by
    unfold render_silhouette
    rw [List.getElem?_map, List.getElem?_range e3]
    simp only [Option.map_some']
    rw [e1, e2]
  refine ⟨h1, ?_, ?_, ?_⟩
  · intro q hq
    unfold render_silhouette at hq
    rw [List.mem_map] at hq
    obtain ⟨p, hp, hqe⟩ := hq
    by_cases hb : occludedQuery scene (centerRay cam w h (p % w) (p / w))
    · left; rw [← hqe, if_pos hb]
    · right; rw [← hqe, if_neg hb]
  · rw [h1]
    cases hsc : scene (centerRay cam w h px py) <;>
      simp [occludedQuery, rawDepth, hsc]
  · rw [h1]
    cases hsc : scene (centerRay cam w h px py) <;>
      simp [occludedQuery, rawDepth, hsc]

/-- Witness for C6 on a 1 x 1 all-miss scene: the single silhouette pixel
is 0 exactly because the depth pixel is a miss. -/
theorem render_silhouette_binary_witness :
    (0 : ℕ) < 1 ∧
    ((render_silhouette emptyScene (AnyCamera.persp PerspectiveCamera.default)
        1 1)[(0 : ℕ) * 1 + 0]? = some 0 ↔
      rawDepth emptyScene (AnyCamera.persp PerspectiveCamera.default)
        1 1 0 0 = none) :=
  ⟨Nat.one_pos,
    (render_silhouette_binary emptyScene
      (AnyCamera.persp PerspectiveCamera.default) 1 1 0 0
      Nat.one_pos Nat.one_pos).2.2.2⟩

/-- Witness for C9 on a 1 x 1 image: after release, the first shaded
pixel byte is 0. -/
theorem release_renders_background_witness :
    (0 : ℕ) < 3 * (1 * 1) ∧
    (render_shaded
      (storeScene (fun _ => emptyScene)
        (RayTracer.init ⟨Vec3.zero, Vec3.zero⟩).release_geometry)
      ⟨Vec3.zero, Vec3.zero⟩ (AnyCamera.persp PerspectiveCamera.default)
      1 1 1 (fun _ => (0, 0)) true)[(0 : ℕ)]? = some 0 :=
  ⟨by norm_num,
    (release_renders_background (RayTracer.init ⟨Vec3.zero, Vec3.zero⟩)
      (fun _ => emptyScene) ⟨Vec3.zero, Vec3.zero⟩
      (AnyCamera.persp PerspectiveCamera.default) 1 1 1 (fun _ => (0, 0))
      true true 0).2.2.2.1 (by norm_num)⟩

end Euclid
